import Mathlib

/-!
Verification development for the OpsAgent repository.

The program keeps all business state in a remote spreadsheet accessed as
row-oriented tabs of string cells.  We embed the spreadsheet as lists of
rows of strings, the relevant Python string/number primitives, and the
operations of `main.py`, `scheduler.py`, `database.py` and `dashboard.py`
that the claims are about.  External services are modelled as parameters:
the fuzzy scorer of `thefuzz.process.extractOne` is a parameter
`sc : String → String → Nat` (scores are 0..100), the LLM call plus JSON
parsing is a parameter `llm : String → Except String MsgData` (an
`Except.error` stands for any exception raised while producing/parsing the
model output), and the dashboard's SHA-256 `hash_pass` is a parameter
`h : String → String`.  I/O against the spreadsheet is modelled on its
success path: a write is a pure update of the tab value.
-/

namespace OpsAgent

/-- A spreadsheet row: a list of string cells (gspread `get_all_values`). -/
abbrev Row := List String

/-- A spreadsheet tab: a list of rows; index 0 is the header row. -/
abbrev Tab := List Row

/-- Pad a row with empty cells up to length `n` (a spreadsheet cell beyond
the stored row reads as the empty string, and writing to it extends the row). -/
def padTo (r : Row) (n : Nat) : Row := r ++ List.replicate (n - r.length) ""

/-- Write cell `c` (0-based) of a row, extending it if needed — the model of
gspread `update_cell` restricted to one row. -/
def setCellRow (r : Row) (c : Nat) (v : String) : Row := (padTo r (c + 1)).set c v

/-- Apply `f` to row `i` (0-based) of a tab. -/
def modifyRow : Tab → Nat → (Row → Row) → Tab
  | [], _, _ => []
  | r :: rs, 0, f => f r :: rs
  | r :: rs, n + 1, f => r :: modifyRow rs n f

/-- Model of gspread `ws.update_cell(i+1, c+1, v)` (0-based here). -/
def setCell (t : Tab) (i c : Nat) (v : String) : Tab :=
  modifyRow t i (fun r => setCellRow r c v)

/-- Python whitespace characters recognised by `str.strip()` (ASCII range). -/
def isPyWS (c : Char) : Bool :=
  c = ' ' || c = '\t' || c = '\n' || c = '\r' || c = '\x0b' || c = '\x0c'

/-- Drop trailing whitespace. -/
def dropTrailWS (l : List Char) : List Char := (l.reverse.dropWhile isPyWS).reverse

/-- Model of Python `str.strip()` on a character list. -/
def stripWS (l : List Char) : List Char := dropTrailWS (l.dropWhile isPyWS)

/-- Value of a nonempty all-digit character list; `none` otherwise. -/
def digitsVal? (l : List Char) : Option Nat :=
  if l ≠ [] && l.all Char.isDigit then
    some (l.foldl (fun a c => a * 10 + (c.toNat - 48)) 0)
  else none

/-- Model of Python `int(s)` on strings: strip, optional sign, decimal digits;
`none` models the `ValueError` it raises otherwise.  (Underscore digit
separators, which the code never produces, are not modelled.) -/
def pyInt (s : String) : Option Int :=
  match stripWS s.toList with
  | '+' :: rest => (digitsVal? rest).map (fun n => (n : Int))
  | '-' :: rest => (digitsVal? rest).map (fun n => -(n : Int))
  | l => (digitsVal? l).map (fun n => (n : Int))

/-- Does `pat` occur at the front of `l`? -/
def listStarts : List Char → List Char → Bool
  | [], _ => true
  | _ :: _, [] => false
  | p :: ps, x :: xs => p == x && listStarts ps xs

/-- Does `pat` occur at the end of `l`? -/
def listEnds (pat l : List Char) : Bool := listStarts pat.reverse l.reverse

/-- Leftmost non-overlapping replacement, the core of Python `str.replace`.
`fuel` bounds recursion; `fuel = l.length` suffices for nonempty patterns
(the code only ever replaces nonempty patterns). -/
def replaceAux (pat rep : List Char) : Nat → List Char → List Char
  | 0, l => l
  | _ + 1, [] => []
  | fuel + 1, x :: xs =>
    if listStarts pat (x :: xs) then rep ++ replaceAux pat rep fuel ((x :: xs).drop pat.length)
    else x :: replaceAux pat rep fuel xs

/-- Model of Python `s.replace(pat, rep)` for nonempty `pat`. -/
def pyReplace (s pat rep : String) : String :=
  (replaceAux pat.toList rep.toList s.toList.length s.toList).asString

/-- Model of Python `s.lower()` (ASCII case). -/
def pyLower (s : String) : String := (s.toList.map Char.toLower).asString

/-- Python integer string conversion `str(i)`. -/
def intToStr (i : Int) : String := toString i

/-- `clean_json_string` from `main.py`: strip, drop a leading markdown fence,
drop a trailing fence, strip again. -/
def clean_json_string (s : String) : String :=
  let cs := stripWS s.toList
  let cs2 :=
    if listStarts "```json".toList cs then cs.drop 7
    else if listStarts "```".toList cs then cs.drop 3
    else cs
  let cs3 := if listEnds "```".toList cs2 then cs2.take (cs2.length - 3) else cs2
  (stripWS cs3).asString

/-- `thefuzz.process.extractOne` over a running best; strict `>` keeps the
first choice on ties, as the library does scanning left to right. -/
def extractOneAux (sc : String → String → Nat) (q : String) :
    String × Nat → List String → String × Nat
  | best, [] => best
  | best, c :: cs =>
    extractOneAux sc q (if sc q c > best.2 then (c, sc q c) else best) cs

/-- `process.extractOne(q, choices)` with the scorer as a parameter; `none`
on an empty choice list (the Python code guards `if existing_items`). -/
def extractOne (sc : String → String → Nat) (q : String) :
    List String → Option (String × Nat)
  | [] => none
  | c :: cs => some (extractOneAux sc q (c, sc q c) cs)

/-- First row satisfying `p`, with its 0-based index — the model of the
`for i, r in enumerate(rows[1:]) ... break` scans. -/
def findRowAux (p : Row → Bool) : List Row → Option (Nat × Row)
  | [] => none
  | r :: rs => if p r then some (0, r) else (findRowAux p rs).map (fun x => (x.1 + 1, x.2))

/-- `existing_items = [str(r[0]) for r in rows[1:] if len(r) > 0]`. -/
def existingItems (inv : Tab) : List String :=
  ((inv.drop 1).filter (fun r => !r.isEmpty)).map (fun r => r.headD "")

/-- The row scan of `update_inventory_stock`: first data row whose first cell
equals the resolved name. -/
def findMatchRow (rows : List Row) (name : String) : Option (Nat × Row) :=
  findRowAux (fun r => !r.isEmpty && r.headD "" == name) rows

/-- `current_qty = int(r[1]) if len(r) > 1 and r[1] else 0`; `none` models the
`ValueError` of `int` on a non-numeric nonempty cell. -/
def cellQty (r : Row) : Option Int :=
  match r.get? 1 with
  | none => some 0
  | some c => if c = "" then some 0 else pyInt c

/-- `update_inventory_stock(sheet, item_name, qty_change, cost)` from
`main.py`, acting on the Inventory tab.  Returns the updated tab and the
resolved name.  The `none` branch of `cellQty` is the function's own
`except` handler: the exception is logged, nothing is written, and the
already-resolved name is returned. -/
def update_inventory_stock (sc : String → String → Nat) (today : String)
    (inv : Tab) (item_name : String) (qty_change : Int) (cost : Int) :
    Tab × String :=
  match extractOne sc item_name (existingItems inv) with
  | some (best_match, score) =>
    if best_match ≠ "" ∧ 80 < score then
      match findMatchRow (inv.drop 1) best_match with
      | some (i, r) =>
        match cellQty r with
        | some current_qty =>
          -- new_qty = max(0, current_qty + qty_change) is written to column 2,
          -- and on a costed restock the cost is then written to column 3
          (if 0 < qty_change ∧ 0 < cost then
             setCell (setCell inv (i + 1) 1 (intToStr (max 0 (current_qty + qty_change))))
               (i + 1) 2 (intToStr cost)
           else setCell inv (i + 1) 1 (intToStr (max 0 (current_qty + qty_change))),
           best_match)
        | none => (inv, best_match)
      | none =>
        if 0 < qty_change then
          (inv ++ [[best_match, intToStr qty_change, intToStr cost, today, ""]], best_match)
        else (inv, best_match)
    else
      if 0 < qty_change then
        (inv ++ [[item_name, intToStr qty_change, intToStr cost, today, ""]], item_name)
      else (inv, item_name)
  | none =>
    if 0 < qty_change then
      (inv ++ [[item_name, intToStr qty_change, intToStr cost, today, ""]], item_name)
    else (inv, item_name)

/-- Value of a possibly-empty digit list (0 for `[]`), for fraction parts. -/
def digitsValN (l : List Char) : Nat :=
  l.foldl (fun a c => a * 10 + (c.toNat - 48)) 0

/-- Decimal forms accepted by our model of Python `float(s)`: digits with an
optional single fractional part, at least one digit overall.  (Exponent,
`inf`/`nan` and underscore forms are not modelled; the scheduler only meets
plain decimals written by the handler.) -/
def decFrac (l : List Char) : Option Rat :=
  let ip := l.takeWhile (fun c => c ≠ '.')
  match l.dropWhile (fun c => c ≠ '.') with
  | [] => (digitsVal? ip).map (fun n => (n : Rat))
  | '.' :: fp =>
    if fp.any (fun c => c = '.') then none
    else if ip.isEmpty && fp.isEmpty then none
    else if ip.all Char.isDigit && fp.all Char.isDigit then
      some ((digitsValN ip : Rat) + (digitsValN fp : Rat) / ((10 : Rat) ^ fp.length))
    else none
  | _ => none

/-- Model of Python `float(s)` on the decimal forms above. -/
def pyFloat (s : String) : Option Rat :=
  match stripWS s.toList with
  | '+' :: rest => decFrac rest
  | '-' :: rest => (decFrac rest).map (fun q => -q)
  | l => decFrac l

/-- An outbound WhatsApp alert of the scheduler, by its data content (the
message prose built around these values carries no further state). -/
inductive Alert where
  | lowStock (item : String) (qty : Int)
  | staffAbsent (name shift : String)
  | cashFlow (customer : String) (amount : Rat)
deriving DecidableEq

/-- Loop body of `check_inventory_risks` on one data row of the snapshot:
returns the row as left on the sheet and the alert sent, if any. -/
def scanInvRow (r : Row) : Row × Option Alert :=
  if r.length < 2 then (r, none)
  else
    match pyInt (r.getD 1 "") with
    | none => (r, none)
    | some qty =>
      let alert_status := r.getD 4 ""
      if qty < 10 ∧ alert_status ≠ "SENT" then
        (setCellRow r 4 "SENT", some (Alert.lowStock (r.headD "") qty))
      else if 10 ≤ qty ∧ alert_status = "SENT" then
        (if 4 < r.length then setCellRow r 4 "" else r, none)
      else (r, none)

/-- `check_inventory_risks` from `scheduler.py`: one scan over the Inventory
tab.  Each iteration reads the snapshot row and writes only to its own row,
so the scan is a per-row map; alerts are collected in row order. -/
def check_inventory_risks (inv : Tab) : Tab × List Alert :=
  match inv with
  | [] => ([], [])
  | hdr :: rows =>
    (hdr :: rows.map (fun r => (scanInvRow r).1),
     rows.filterMap (fun r => (scanInvRow r).2))

/-- Loop body of `check_staff_risks` on one data row. -/
def scanStaffRow (r : Row) : Row × Option Alert :=
  if r.length < 4 then (r, none)
  else
    let status := pyLower (r.getD 3 "")
    let alert_status := r.getD 5 ""
    if status = "absent" ∧ alert_status ≠ "SENT" then
      (setCellRow r 5 "SENT", some (Alert.staffAbsent (r.headD "") (r.getD 2 "")))
    else if status = "present" ∧ alert_status = "SENT" then
      (setCellRow r 5 "", none)
    else (r, none)

/-- `check_staff_risks` from `scheduler.py`. -/
def check_staff_risks (staff : Tab) : Tab × List Alert :=
  match staff with
  | [] => ([], [])
  | hdr :: rows =>
    (hdr :: rows.map (fun r => (scanStaffRow r).1),
     rows.filterMap (fun r => (scanStaffRow r).2))

/-- Loop body of `check_cash_flow_risks` on one data row. -/
def scanKhataRow (r : Row) : Row × Option Alert :=
  if r.length < 5 then (r, none)
  else
    match pyFloat (r.getD 1 "") with
    | none => (r, none)
    | some amount =>
      let status := r.getD 4 ""
      let alert_status := r.getD 6 ""
      if status = "Pending" ∧ 500 < amount ∧ alert_status ≠ "SENT" then
        (setCellRow r 6 "SENT", some (Alert.cashFlow (r.headD "") amount))
      else if status = "Paid" ∧ alert_status = "SENT" then
        (setCellRow r 6 "", none)
      else (r, none)

/-- `check_cash_flow_risks` from `scheduler.py`. -/
def check_cash_flow_risks (khata : Tab) : Tab × List Alert :=
  match khata with
  | [] => ([], [])
  | hdr :: rows =>
    (hdr :: rows.map (fun r => (scanKhataRow r).1),
     rows.filterMap (fun r => (scanKhataRow r).2))

/-- The spreadsheet `OpsAgent_DB_v1`: the named tabs the code touches. -/
structure Sheet where
  inventory : Tab
  sales : Tab
  ledger : Tab
  khata : Tab
  staff : Tab
deriving DecidableEq

/-- One iteration of the scheduler main loop: the three checks run in order,
each on its own tab. -/
def scheduler_scan (sheet : Sheet) : Sheet × List Alert :=
  let inv := check_inventory_risks sheet.inventory
  let staff := check_staff_risks sheet.staff
  let khata := check_cash_flow_risks sheet.khata
  ({ sheet with inventory := inv.1, staff := staff.1, khata := khata.1 },
   inv.2 ++ staff.2 ++ khata.2)

/-- A row of the local SQLite `users` table (`database.py`).  `creds_json`
is abstracted to `credsOk`: whether `get_user_client` can build an
authorized client from the stored credentials. -/
structure UserRec where
  email : String
  phone_number : Option String
  credsOk : Bool
  sheet_id : Option String
  password_hash : Option String
deriving DecidableEq

/-- `get_user_by_phone` from `database.py`: strip spaces and hyphens, then
match the stored number verbatim or with `+` prepended; `fetchone` returns
the first matching row. -/
def get_user_by_phone (db : List UserRec) (phone : String) : Option UserRec :=
  let clean := pyReplace (pyReplace phone " " "") "-" ""
  db.find? (fun u => u.phone_number == some clean || u.phone_number == some ("+" ++ clean))

/-- `get_user_by_email` from `database.py`. -/
def get_user_by_email (db : List UserRec) (email : String) : Option UserRec :=
  db.find? (fun u => u.email == email)

/-- Python `str(x)` of an optional string, as used in f-strings
(`None` prints as `"None"`). -/
def strOfOptPy (o : Option String) : String :=
  match o with
  | none => "None"
  | some s => s

/-- Case-insensitive substring test `a.lower() in b.lower()` (on the raw
character lists, already lowered by the caller). -/
def containsSub (needle hay : List Char) : Bool :=
  (List.range (hay.length + 1)).any (fun i => listStarts needle (hay.drop i))

/-- `update_staff_status(sheet, staff_name, status)` from `main.py`, acting
on the Staff tab.  A `none` staff name makes `staff_name.lower()` raise,
which the function's own `except` turns into the failure message. -/
def update_staff_status (staff : Tab) (staff_name : Option String)
    (status : Option String) : Tab × String :=
  match staff_name with
  | none => (staff, "❌ Staff Update Failed")
  | some nm =>
    match findRowAux
        (fun r => !r.isEmpty && containsSub (pyLower nm).toList (pyLower (r.headD "")).toList)
        (staff.drop 1) with
    | some (i, r) =>
      (setCell staff (i + 1) 3 (status.getD ""),
       "✅ Marked " ++ r.headD "" ++ " as " ++ strOfOptPy status)
    | none => (staff, "⚠️ Staff member '" ++ nm ++ "' not found.")

/-- The JSON object the handler expects back from the model, after
`json.loads`; absent keys are `none`.  Numeric fields are integers in the
model (prices are only copied into cells, never computed with). -/
structure MsgData where
  action : Option String
  item : Option String
  qty : Option Int
  price : Option Int
  party : Option String
  mode : Option String
  staff_name : Option String
  staff_status : Option String
  reply : Option String
deriving DecidableEq

/-- `qty = int(data.get('qty') or 1)`: `None` and `0` both fall back to 1. -/
def pyQty (o : Option Int) : Int :=
  match o with
  | none => 1
  | some q => if q = 0 then 1 else q

/-- `item = data.get('item') or "Unknown Item"`: `None` and `""` fall back. -/
def pyItem (o : Option String) : String :=
  match o with
  | none => "Unknown Item"
  | some s => if s = "" then "Unknown Item" else s

/-- The action dispatch of `reply_whatsapp` (main.py lines 298–323), from the
parsed `data` on.  Returns the updated spreadsheet and the reply text of the
outgoing `MessagingResponse`. -/
def handleAction (sc : String → String → Nat) (today : String) (sheet : Sheet)
    (data : MsgData) : Sheet × String :=
  let qty : Int := pyQty data.qty
  let price : Int := data.price.getD 0
  let item : String := pyItem data.item
  if data.action = some "SALE" then
    let res := update_inventory_stock sc today sheet.inventory item (-qty) 0
    let sales2 := sheet.sales ++
      [[res.2, intToStr qty, intToStr price, today, data.mode.getD "", data.party.getD "Walk-in"]]
    let khata2 :=
      if data.mode = some "UDHAR" then
        sheet.khata ++ [[data.party.getD "Guest", intToStr price, item, today, "Pending", ""]]
      else sheet.khata
    ({ sheet with inventory := res.1, sales := sales2, khata := khata2 },
     data.reply.getD "Processed!")
  else if data.action = some "STAFF" then
    let res := update_staff_status sheet.staff data.staff_name data.staff_status
    ({ sheet with staff := res.1 }, res.2)
  else if data.action = some "RESTOCK" then
    let res := update_inventory_stock sc today sheet.inventory item qty price
    let ledger2 := sheet.ledger ++
      [["Restock: " ++ res.2, intToStr price, today, "Inventory"]]
    ({ sheet with inventory := res.1, ledger := ledger2 }, data.reply.getD "Processed!")
  else (sheet, data.reply.getD "Processed!")

/-- The form fields of the inbound Twilio webhook used by the handler. -/
structure WebForm where
  From : String
  body : String
  numMedia : Nat
  mediaUrl : Option String
deriving DecidableEq

/-- `reply_whatsapp` from `main.py`.  `llm` stands for
`model.generate_content` followed by `clean_json_string`/`json.loads`: an
`Except.error e` is any exception raised there, caught by the handler's
`except` which logs it and replies with the formatted error.  `mediaOk`
stands for the HTTP 200 outcome of the authenticated media download. -/
def reply_whatsapp (sc : String → String → Nat) (today : String)
    (db : List UserRec) (llm : String → Except String MsgData) (mediaOk : Bool)
    (sheet : Sheet) (form : WebForm) : Sheet × String :=
  let sender := pyReplace form.From "whatsapp:" ""
  match get_user_by_phone db sender with
  | none => (sheet, "❌ Number not registered. Please Login.")
  | some user =>
    if user.credsOk = false then (sheet, "⚠️ Session Expired. Log in again.")
    else if 0 < form.numMedia ∧ form.mediaUrl.getD "" ≠ "" ∧ mediaOk = false then
      (sheet, "❌ Error downloading image.")
    else
      match llm form.body with
      | Except.error e => (sheet, "❌ Error: " ++ e)
      | Except.ok data => handleAction sc today sheet data

/-- `authenticate` from `dashboard.py`, with the SHA-256 `hash_pass` as the
parameter `h`.  Returns the `(success, message)` pair of the source. -/
def authenticate (h : String → String) (db : List UserRec)
    (email password : String) : Bool × String :=
  match get_user_by_email db email with
  | none => (false, "❌ User not found.")
  | some user =>
    match user.password_hash with
    | none => (false, "SET_PASSWORD")
    | some stored =>
      if stored = "" then (false, "SET_PASSWORD")
      else if stored = h password then (true, "✅ Login Successful")
      else (false, "❌ Incorrect Password")

/-- The Streamlit session state of the dashboard login flow. -/
structure DashSession where
  authenticated : Bool
  user_email : Option String
  setup_mode : Bool
deriving DecidableEq

/-- The auto-login block of `dashboard.py` (lines 102–113): with an `email`
query parameter present and the session not yet authenticated, a successful
user lookup authenticates the session directly. -/
def auto_login (db : List UserRec) (queryEmail : Option String)
    (s : DashSession) : DashSession :=
  match queryEmail with
  | none => s
  | some e =>
    if s.authenticated = false ∧ (get_user_by_email db e).isSome then
      { authenticated := true, user_email := some e, setup_mode := false }
    else s

/-- The login form submit handler of `dashboard.py` (lines 122–133). -/
def login_submit (h : String → String) (db : List UserRec) (s : DashSession)
    (email password : String) : DashSession :=
  if email ≠ "" ∧ password ≠ "" then
    let res := authenticate h db email password
    if res.1 then { authenticated := true, user_email := some email, setup_mode := false }
    else if res.2 = "SET_PASSWORD" then { s with setup_mode := true }
    else s
  else s

/-! ### Cell and row lemmas -/

theorem getD_padTo (r : Row) (n j : Nat) : (padTo r n).getD j "" = r.getD j "" := by
  rcases Nat.lt_or_ge j r.length with h | h
  · simp [padTo, List.getD_eq_getElem?_getD, List.getElem?_append_left h]
  · simp only [padTo, List.getD_eq_getElem?_getD, List.getElem?_append_right h]
    rcases Nat.lt_or_ge (j - r.length) (n - r.length) with hc | hc
    · simp [List.getElem?_replicate, hc, List.getElem?_eq_none h]
    · have hc2 : (List.replicate (n - r.length) "").length ≤ j - r.length := by
        simpa using hc
      simp [List.getElem?_eq_none hc2, List.getElem?_eq_none h]

theorem length_padTo (r : Row) (n : Nat) : (padTo r n).length = max r.length n := by
  simp [padTo]
  omega

theorem length_setCellRow (r : Row) (c : Nat) (v : String) :
    (setCellRow r c v).length = max r.length (c + 1) := by
  simp [setCellRow, length_padTo]

theorem getD_setCellRow_self (r : Row) (c : Nat) (v : String) :
    (setCellRow r c v).getD c "" = v := by
  have hc : c < (padTo r (c + 1)).length := by
    rw [length_padTo]; omega
  simp [setCellRow, List.getD_eq_getElem?_getD, List.getElem?_set_self hc]

theorem getD_setCellRow_ne (r : Row) (c j : Nat) (v : String) (h : c ≠ j) :
    (setCellRow r c v).getD j "" = r.getD j "" := by
  simp [setCellRow, List.getD_eq_getElem?_getD, List.getElem?_set_ne h]
  rw [← List.getD_eq_getElem?_getD, getD_padTo, List.getD_eq_getElem?_getD]

theorem length_modifyRow (t : Tab) (i : Nat) (f : Row → Row) :
    (modifyRow t i f).length = t.length := by
  induction t generalizing i with
  | nil => rfl
  | cons r rs ih =>
    cases i with
    | zero => rfl
    | succ n => simp [modifyRow, ih]

theorem get?_modifyRow_self (t : Tab) (i : Nat) (f : Row → Row) (r : Row)
    (h : t.get? i = some r) : (modifyRow t i f).get? i = some (f r) := by
  induction t generalizing i with
  | nil => simp at h
  | cons hd tl ih =>
    cases i with
    | zero => simp_all [modifyRow]
    | succ n =>
      simp only [List.get?_cons_succ] at h
      simpa [modifyRow] using ih n h

theorem get?_modifyRow_ne (t : Tab) (i j : Nat) (f : Row → Row) (h : i ≠ j) :
    (modifyRow t i f).get? j = t.get? j := by
  induction t generalizing i j with
  | nil => rfl
  | cons hd tl ih =>
    cases i with
    | zero =>
      cases j with
      | zero => exact absurd rfl h
      | succ m => simp [modifyRow]
    | succ n =>
      cases j with
      | zero => simp [modifyRow]
      | succ m => simpa [modifyRow] using ih n m (by omega)

theorem mem_modifyRow (t : Tab) (i : Nat) (f : Row → Row) (r' : Row)
    (h : r' ∈ modifyRow t i f) :
    r' ∈ t ∨ ∃ r, t.get? i = some r ∧ r' = f r := by
  induction t generalizing i with
  | nil => simp [modifyRow] at h
  | cons hd tl ih =>
    cases i with
    | zero =>
      rcases List.mem_cons.mp h with h1 | h1
      · exact Or.inr ⟨hd, rfl, h1⟩
      · exact Or.inl (List.mem_cons_of_mem _ h1)
    | succ n =>
      rcases List.mem_cons.mp h with h1 | h1
      · exact Or.inl (h1 ▸ List.mem_cons_self _ _)
      · rcases ih n h1 with h2 | ⟨r, hr, he⟩
        · exact Or.inl (List.mem_cons_of_mem _ h2)
        · exact Or.inr ⟨r, by simpa using hr, he⟩

theorem length_setCell (t : Tab) (i c : Nat) (v : String) :
    (setCell t i c v).length = t.length := length_modifyRow t i _

theorem get?_setCell_self (t : Tab) (i c : Nat) (v : String) (r : Row)
    (h : t.get? i = some r) :
    (setCell t i c v).get? i = some (setCellRow r c v) :=
  get?_modifyRow_self t i _ r h

theorem get?_setCell_ne (t : Tab) (i j c : Nat) (v : String) (h : i ≠ j) :
    (setCell t i c v).get? j = t.get? j :=
  get?_modifyRow_ne t i j _ h

/-! ### Fuzzy-match and row-scan lemmas -/

theorem extractOneAux_spec (sc : String → String → Nat) (q : String)
    (l : List String) (best : String × Nat) :
    extractOneAux sc q best l = best ∨
      ∃ c ∈ l, extractOneAux sc q best l = (c, sc q c) := by
  induction l generalizing best with
  | nil => exact Or.inl rfl
  | cons c cs ih =>
    simp only [extractOneAux]
    by_cases h : sc q c > best.2
    · rw [if_pos h]
      rcases ih (c, sc q c) with h1 | ⟨c2, hc2, h1⟩
      · exact Or.inr ⟨c, List.mem_cons_self _ _, h1⟩
      · exact Or.inr ⟨c2, List.mem_cons_of_mem _ hc2, h1⟩
    · rw [if_neg h]
      rcases ih best with h1 | ⟨c2, hc2, h1⟩
      · exact Or.inl h1
      · exact Or.inr ⟨c2, List.mem_cons_of_mem _ hc2, h1⟩

theorem extractOne_spec (sc : String → String → Nat) (q : String)
    (l : List String) (m : String) (s : Nat)
    (h : extractOne sc q l = some (m, s)) : m ∈ l ∧ s = sc q m := by
  cases l with
  | nil => simp [extractOne] at h
  | cons c cs =>
    simp only [extractOne, Option.some.injEq] at h
    rcases extractOneAux_spec sc q cs (c, sc q c) with h1 | ⟨c2, hc2, h1⟩
    · rw [h1] at h
      obtain ⟨rfl, rfl⟩ := Prod.mk.injEq .. ▸ h
      exact ⟨List.mem_cons_self _ _, rfl⟩
    · rw [h1] at h
      obtain ⟨rfl, rfl⟩ := Prod.mk.injEq .. ▸ h
      exact ⟨List.mem_cons_of_mem _ hc2, rfl⟩

theorem findRowAux_some (p : Row → Bool) (rows : List Row) (i : Nat) (r : Row)
    (h : findRowAux p rows = some (i, r)) :
    rows.get? i = some r ∧ p r = true := by
  induction rows generalizing i with
  | nil => simp [findRowAux] at h
  | cons hd tl ih =>
    by_cases hp : p hd
    · simp [findRowAux, hp] at h
      obtain ⟨rfl, rfl⟩ := h
      exact ⟨rfl, hp⟩
    · simp only [findRowAux, if_neg hp, Option.map_eq_some'] at h
      obtain ⟨⟨j, r2⟩, hj, he⟩ := h
      simp only [Prod.mk.injEq] at he
      obtain ⟨rfl, rfl⟩ := he
      have := ih j hj
      simpa using this

theorem findRowAux_isSome (p : Row → Bool) (rows : List Row) (r : Row)
    (hm : r ∈ rows) (hp : p r = true) : (findRowAux p rows).isSome = true := by
  induction rows with
  | nil => simp at hm
  | cons hd tl ih =>
    by_cases hh : p hd
    · simp [findRowAux, hh]
    · rcases List.mem_cons.mp hm with rfl | hm2
      · exact absurd hp (by simp [hh])
      · simp only [findRowAux, if_neg hh, Option.isSome_map']
        exact ih hm2

theorem mem_existingItems (inv : Tab) (m : String) (h : m ∈ existingItems inv) :
    ∃ r ∈ inv.drop 1, (!r.isEmpty && r.headD "" == m) = true := by
  simp only [existingItems, List.mem_map, List.mem_filter] at h
  obtain ⟨r, ⟨hr, hne⟩, he⟩ := h
  refine ⟨r, hr, ?_⟩
  rw [Bool.and_eq_true, beq_iff_eq]
  exact ⟨hne, he⟩

theorem findMatchRow_isSome (inv : Tab) (m : String) (h : m ∈ existingItems inv) :
    (findMatchRow (inv.drop 1) m).isSome = true := by
  obtain ⟨r, hr, hp⟩ := mem_existingItems inv m h
  exact findRowAux_isSome _ _ r hr hp

/-! ### Stripping lemmas -/

theorem dropWhile_cons_neg (p : Char → Bool) (x : Char) (xs : List Char)
    (h : p x = false) : List.dropWhile p (x :: xs) = x :: xs := by
  simp [List.dropWhile, h]

theorem dropWhile_idem (p : Char → Bool) (l : List Char) :
    List.dropWhile p (List.dropWhile p l) = List.dropWhile p l := by
  induction l with
  | nil => rfl
  | cons x xs ih =>
    by_cases h : p x
    · simp [List.dropWhile, h, ih]
    · simp [List.dropWhile, h]

theorem exists_dropWhile_append (p : Char → Bool) (l : List Char) :
    ∃ t, l = t ++ List.dropWhile p l := by
  induction l with
  | nil => exact ⟨[], rfl⟩
  | cons x xs ih =>
    by_cases h : p x
    · obtain ⟨t, ht⟩ := ih
      exact ⟨x :: t, by simp [List.dropWhile, h]; exact ht⟩
    · exact ⟨[], by simp [List.dropWhile, h]⟩

theorem dropWhile_dropTrailWS (l : List Char)
    (hl : List.dropWhile isPyWS l = l) :
    List.dropWhile isPyWS (dropTrailWS l) = dropTrailWS l := by
  unfold dropTrailWS
  obtain ⟨t, ht⟩ := exists_dropWhile_append isPyWS l.reverse
  rcases he : (List.dropWhile isPyWS l.reverse).reverse with _ | ⟨x, xs⟩
  · rfl
  · refine dropWhile_cons_neg _ _ _ ?_
    have hx : l = x :: (xs ++ t.reverse) := by
      have := congrArg List.reverse ht
      rw [List.reverse_append, ← List.reverse_reverse (List.dropWhile isPyWS l.reverse),
        he] at this
      simpa using this
    have : List.dropWhile isPyWS (x :: (xs ++ t.reverse)) = x :: (xs ++ t.reverse) := by
      rw [← hx, hl]
    by_contra hpx
    rw [Bool.not_eq_false] at hpx
    simp [List.dropWhile, hpx] at this
    have hlen := congrArg List.length this
    have hle : (List.dropWhile isPyWS (xs ++ t.reverse)).length ≤ (xs ++ t.reverse).length :=
      (List.dropWhile_suffix isPyWS).length_le
    simp at hlen
    simp at hle
    omega

theorem dropTrailWS_idem (l : List Char) :
    dropTrailWS (dropTrailWS l) = dropTrailWS l := by
  unfold dropTrailWS
  rw [List.reverse_reverse, dropWhile_idem]

theorem stripWS_idem (l : List Char) : stripWS (stripWS l) = stripWS l := by
  unfold stripWS
  rw [dropWhile_dropTrailWS (List.dropWhile isPyWS l) (dropWhile_idem isPyWS l),
    dropTrailWS_idem]

/-! ### Low-stock scan lemmas -/

theorem scanInvRow_short (r : Row) (h : r.length < 2) : scanInvRow r = (r, none) := by
  unfold scanInvRow
  rw [if_pos h]

theorem scanInvRow_badqty (r : Row) (h : ¬r.length < 2)
    (hq : pyInt (r.getD 1 "") = none) : scanInvRow r = (r, none) := by
  unfold scanInvRow
  rw [if_neg h, hq]

theorem scanInvRow_eq (r : Row) (q : Int) (h : ¬r.length < 2)
    (hq : pyInt (r.getD 1 "") = some q) :
    scanInvRow r =
      if q < 10 ∧ r.getD 4 "" ≠ "SENT" then
        (setCellRow r 4 "SENT", some (Alert.lowStock (r.headD "") q))
      else if 10 ≤ q ∧ r.getD 4 "" = "SENT" then
        (if 4 < r.length then setCellRow r 4 "" else r, none)
      else (r, none) := by
  unfold scanInvRow
  rw [if_neg h, hq]

theorem scanInvRow_twice (r : Row) : (scanInvRow (scanInvRow r).1).2 = none := by
  by_cases h2 : r.length < 2
  · rw [scanInvRow_short r h2, scanInvRow_short r h2]
  · cases hq : pyInt (r.getD 1 "") with
    | none => rw [scanInvRow_badqty r h2 hq, scanInvRow_badqty r h2 hq]
    | some q =>
      rw [scanInvRow_eq r q h2 hq]
      by_cases hc1 : q < 10 ∧ r.getD 4 "" ≠ "SENT"
      · rw [if_pos hc1]
        have hlen : ¬(setCellRow r 4 "SENT").length < 2 := by
          rw [length_setCellRow]; omega
        have hq2 : pyInt ((setCellRow r 4 "SENT").getD 1 "") = some q := by
          rw [getD_setCellRow_ne r 4 1 _ (by omega)]; exact hq
        rw [scanInvRow_eq _ q hlen hq2, getD_setCellRow_self]
        have hx1 : ¬(q < 10 ∧ ("SENT" : String) ≠ "SENT") := by simp
        have hx2 : ¬(10 ≤ q ∧ ("SENT" : String) = "SENT") :=
          fun hcon => absurd hc1.1 (not_lt.mpr hcon.1)
        rw [if_neg hx1, if_neg hx2]
      · rw [if_neg hc1]
        by_cases hc2 : 10 ≤ q ∧ r.getD 4 "" = "SENT"
        · rw [if_pos hc2]
          by_cases h4 : 4 < r.length
          · rw [if_pos h4]
            have hlen : ¬(setCellRow r 4 "").length < 2 := by
              rw [length_setCellRow]; omega
            have hq2 : pyInt ((setCellRow r 4 "").getD 1 "") = some q := by
              rw [getD_setCellRow_ne r 4 1 _ (by omega)]; exact hq
            rw [scanInvRow_eq _ q hlen hq2, getD_setCellRow_self]
            simp [not_lt.mpr hc2.1]
          · rw [if_neg h4, scanInvRow_eq r q h2 hq, if_neg hc1, if_pos hc2]
        · rw [if_neg hc2, scanInvRow_eq r q h2 hq, if_neg hc1, if_neg hc2]

theorem check_inventory_risks_twice (t : Tab) :
    (check_inventory_risks (check_inventory_risks t).1).2 = [] := by
  cases t with
  | nil => rfl
  | cons hdr rows =>
    simp only [check_inventory_risks, List.filterMap_map]
    rw [List.filterMap_eq_nil_iff]
    intro r _
    exact scanInvRow_twice r

/-! ### clean_json_string lemmas -/

theorem toList_asString (l : List Char) : (List.asString l).toList = l := rfl

theorem asString_toList (s : String) : (s.toList).asString = s := rfl

theorem listStarts_append_false (p q l : List Char)
    (h : listStarts p l = false) : listStarts (p ++ q) l = false := by
  induction p generalizing l with
  | nil => simp [listStarts] at h
  | cons a ps ih =>
    cases l with
    | nil => rfl
    | cons x xs =>
      simp only [List.cons_append, listStarts, Bool.and_eq_false_iff] at h ⊢
      rcases h with h | h
      · exact Or.inl h
      · exact Or.inr (ih xs h)

theorem clean_json_string_toList (s : String) :
    stripWS (clean_json_string s).toList = (clean_json_string s).toList := by
  simp only [clean_json_string, toList_asString]
  exact stripWS_idem _

theorem clean_json_string_fixed (t : String)
    (hs : stripWS t.toList = t.toList)
    (hjson : listStarts "```json".toList t.toList = false)
    (hfence : listStarts "```".toList t.toList = false)
    (hend : listEnds "```".toList t.toList = false) :
    clean_json_string t = t := by
  simp only [clean_json_string, hs, hjson, hfence, hend, Bool.false_eq_true, if_false]
  exact asString_toList t

/-- Claim C10 counterexample: `clean_json_string` is not idempotent.  On
the input `"```json```json"` one application yields `"```json"`, and a
second application strips that again, to `""`. -/
theorem claim_C10_cex :
    clean_json_string "```json```json" = "```json" ∧
    clean_json_string (clean_json_string "```json```json") = "" ∧
    clean_json_string (clean_json_string "```json```json") ≠
      clean_json_string "```json```json" := by
  refine ⟨by decide, by decide, by decide⟩

/-- Claim C10 (amended): `clean_json_string` is idempotent on every input
whose cleaned result does not itself start or end with a markdown fence:
if `clean_json_string s` neither starts nor ends with three backticks,
then a second application leaves it unchanged. -/
theorem claim_C10 (s : String)
    (h1 : listStarts "```".toList (clean_json_string s).toList = false)
    (h2 : listEnds "```".toList (clean_json_string s).toList = false) :
    clean_json_string (clean_json_string s) = clean_json_string s := by
  have hsplit : ("```json".toList : List Char) = "```".toList ++ "json".toList := by decide
  have hjson : listStarts "```json".toList (clean_json_string s).toList = false := by
    rw [hsplit]
    exact listStarts_append_false _ _ _ h1
  exact clean_json_string_fixed _ (clean_json_string_toList s) hjson h1 h2

/-- Witness for C10: a concrete input whose cleaned form has no fences. -/
theorem claim_C10_witness :
    listStarts "```".toList (clean_json_string " hello ").toList = false ∧
    listEnds "```".toList (clean_json_string " hello ").toList = false ∧
    clean_json_string (clean_json_string " hello ") = clean_json_string " hello " :=
  ⟨by decide, by decide, claim_C10 " hello " (by decide) (by decide)⟩

theorem headD_eq_getD (l : List String) (d : String) : l.headD d = l.getD 0 d := by
  cases l <;> rfl

/-! ### Claim theorems -/

/-- Claim C5 counterexample: the `email` query parameter by itself grants an
authenticated dashboard session.  The user below is registered and has a
stored password hash, the session starts unauthenticated, no password is
supplied anywhere, and the auto-login block authenticates the session. -/
theorem claim_C5_cex :
    (auto_login
        [{ email := "owner@example.com", phone_number := some "+911112223334",
           credsOk := true, sheet_id := none, password_hash := some "ab12cd" }]
        (some "owner@example.com")
        { authenticated := false, user_email := none, setup_mode := false }) =
      { authenticated := true, user_email := some "owner@example.com",
        setup_mode := false } := by
  decide

/-- Claim C5 (amended): the password form grants access exactly when the
stored hash is present, nonempty and equals the hash of the supplied
password, and the form path authenticates only through that check — but the
`email` query parameter by itself authenticates the session for any
registered email, bypassing the password gate entirely. -/
theorem claim_C5 (h : String → String) (db : List UserRec) :
    (∀ email password,
        (authenticate h db email password).1 = true ↔
          ∃ u sh, get_user_by_email db email = some u ∧ u.password_hash = some sh ∧
            sh ≠ "" ∧ sh = h password)
    ∧ (∀ s email password,
        (login_submit h db s email password).authenticated = true →
          s.authenticated = true ∨ (authenticate h db email password).1 = true)
    ∧ (∀ e s, s.authenticated = false → (get_user_by_email db e).isSome = true →
        (auto_login db (some e) s).authenticated = true ∧
        (auto_login db (some e) s).user_email = some e) := by
  refine ⟨?_, ?_, ?_⟩
  · intro email password
    constructor
    · intro htrue
      unfold authenticate at htrue
      split at htrue
      · simp at htrue
      · rename_i u hfind
        split at htrue
        · simp at htrue
        · rename_i stored hph
          split at htrue
          · simp at htrue
          · rename_i hse
            split at htrue
            · rename_i hm
              exact ⟨u, stored, hfind, hph, hse, hm⟩
            · simp at htrue
    · rintro ⟨u, sh, hfind, hph, hne, hsh⟩
      simp only [authenticate, hfind, hph, if_neg hne, if_pos hsh]
  · intro s email password hauth
    unfold login_submit at hauth
    by_cases hne : email ≠ "" ∧ password ≠ ""
    · rw [if_pos hne] at hauth
      by_cases hres : (authenticate h db email password).1
      · exact Or.inr hres
      · rw [if_neg (by simpa using hres)] at hauth
        by_cases hmsg : (authenticate h db email password).2 = "SET_PASSWORD"
        · rw [if_pos hmsg] at hauth
          exact Or.inl hauth
        · rw [if_neg hmsg] at hauth
          exact Or.inl hauth
    · rw [if_neg hne] at hauth
      exact Or.inl hauth
  · intro e s hs hsome
    simp only [auto_login]
    rw [if_pos ⟨hs, hsome⟩]
    exact ⟨rfl, rfl⟩

/-- Witness for C5 at a concrete database, hash function and session. -/
theorem claim_C5_witness :
    (authenticate (fun p => p ++ "#")
        [{ email := "a@b.c", phone_number := none, credsOk := true,
           sheet_id := none, password_hash := some "secret#" }]
        "a@b.c" "secret").1 = true ∧
    (auto_login
        [{ email := "a@b.c", phone_number := none, credsOk := true,
           sheet_id := none, password_hash := some "secret#" }]
        (some "a@b.c")
        { authenticated := false, user_email := none, setup_mode := false }).authenticated =
      true := by
  constructor
  · exact ((claim_C5 (fun p => p ++ "#") _).1 "a@b.c" "secret").mpr
      ⟨{ email := "a@b.c", phone_number := none, credsOk := true,
         sheet_id := none, password_hash := some "secret#" },
       "secret#", by decide, rfl, by decide, by decide⟩
  · exact ((claim_C5 (fun p => p ++ "#") _).2.2 "a@b.c"
      { authenticated := false, user_email := none, setup_mode := false } rfl (by decide)).1

/-- Claim C9: an inbound webhook whose cleaned sender number matches no
user row (verbatim or with `+` prepended) is answered with the
registration message, with the spreadsheet unchanged and the result
independent of the LLM (which is never consulted on this path). -/
theorem claim_C9 (sc : String → String → Nat) (today : String)
    (db : List UserRec) (llm : String → Except String MsgData) (mediaOk : Bool)
    (sheet : Sheet) (form : WebForm)
    (h : get_user_by_phone db (pyReplace form.From "whatsapp:" "") = none) :
    reply_whatsapp sc today db llm mediaOk sheet form =
      (sheet, "❌ Number not registered. Please Login.") := by
  simp only [reply_whatsapp, h]

/-- Witness for C9: a concrete unregistered sender. -/
theorem claim_C9_witness :
    reply_whatsapp (fun _ _ => 0) "2026-01-01"
        [{ email := "a@b.c", phone_number := some "+919876543210", credsOk := true,
           sheet_id := none, password_hash := none }]
        (fun _ => Except.error "never called") true
        { inventory := [], sales := [], ledger := [], khata := [], staff := [] }
        { From := "whatsapp:+911111111111", body := "2 chai bech diye",
          numMedia := 0, mediaUrl := none } =
      ({ inventory := [], sales := [], ledger := [], khata := [], staff := [] },
       "❌ Number not registered. Please Login.") :=
  claim_C9 _ _ _ _ _ _ _ (by decide)

/-- Claim C6 counterexample: on a processing exception the handler does not
answer with either of the spec's fixed fallback strings — it embeds the
exception text in the reply. -/
theorem claim_C6_cex :
    (reply_whatsapp (fun _ _ => 0) "2026-01-01"
        [{ email := "a@b.c", phone_number := some "+911234567890", credsOk := true,
           sheet_id := none, password_hash := none }]
        (fun _ => Except.error "boom") true
        { inventory := [], sales := [], ledger := [], khata := [], staff := [] }
        { From := "whatsapp:+911234567890", body := "hi", numMedia := 0,
          mediaUrl := none }).2 = "❌ Error: boom" ∧
    ("❌ Error: boom" : String) ≠ "Samajh nahi aaya" ∧
    ("❌ Error: boom" : String) ≠ "Processing error" := by
  refine ⟨by decide, by decide, by decide⟩

/-- Claim C6 (amended): when processing raises after the user is resolved,
the handler catches the exception and replies — without re-raising — with
the string `"❌ Error: "` followed by the exception's own text, so the
exception does not propagate but its contents are exposed in the reply. -/
theorem claim_C6 (sc : String → String → Nat) (today : String)
    (db : List UserRec) (llm : String → Except String MsgData) (mediaOk : Bool)
    (sheet : Sheet) (form : WebForm) (user : UserRec) (e : String)
    (hu : get_user_by_phone db (pyReplace form.From "whatsapp:" "") = some user)
    (hc : user.credsOk = true)
    (hm : ¬(0 < form.numMedia ∧ form.mediaUrl.getD "" ≠ "" ∧ mediaOk = false))
    (hl : llm form.body = Except.error e) :
    reply_whatsapp sc today db llm mediaOk sheet form = (sheet, "❌ Error: " ++ e) := by
  simp only [reply_whatsapp, hu, hl, hc]
  rw [if_neg (by simp), if_neg hm]

/-- Witness for C6 at a concrete registered sender and failing LLM call. -/
theorem claim_C6_witness :
    reply_whatsapp (fun _ _ => 0) "2026-01-01"
        [{ email := "a@b.c", phone_number := some "+911234567890", credsOk := true,
           sheet_id := none, password_hash := none }]
        (fun _ => Except.error "json decode failed") true
        { inventory := [], sales := [], ledger := [], khata := [], staff := [] }
        { From := "whatsapp:+911234567890", body := "hi", numMedia := 0,
          mediaUrl := none } =
      ({ inventory := [], sales := [], ledger := [], khata := [], staff := [] },
       "❌ Error: json decode failed") :=
  claim_C6 _ _ _ _ _ _ _
    { email := "a@b.c", phone_number := some "+911234567890", credsOk := true,
      sheet_id := none, password_hash := none }
    "json decode failed" (by decide) rfl (by decide) rfl

/-- Claim C4: a webhook classified as a SALE appends exactly one Sales row,
and exactly when the mode is UDHAR it also appends exactly one Khata row
whose status cell (index 4) is `"Pending"`; with any other mode the Khata
tab is untouched.  The two appends are separate writes on separate tabs. -/
theorem claim_C4 (sc : String → String → Nat) (today : String)
    (db : List UserRec) (llm : String → Except String MsgData) (mediaOk : Bool)
    (sheet : Sheet) (form : WebForm) (user : UserRec) (data : MsgData)
    (hu : get_user_by_phone db (pyReplace form.From "whatsapp:" "") = some user)
    (hc : user.credsOk = true)
    (hm : ¬(0 < form.numMedia ∧ form.mediaUrl.getD "" ≠ "" ∧ mediaOk = false))
    (hl : llm form.body = Except.ok data)
    (ha : data.action = some "SALE") :
    (∃ nm, (reply_whatsapp sc today db llm mediaOk sheet form).1.sales =
        sheet.sales ++
          [[nm, intToStr (pyQty data.qty), intToStr (data.price.getD 0), today,
            data.mode.getD "", data.party.getD "Walk-in"]])
    ∧ (data.mode = some "UDHAR" →
        (reply_whatsapp sc today db llm mediaOk sheet form).1.khata =
          sheet.khata ++
            [[data.party.getD "Guest", intToStr (data.price.getD 0), pyItem data.item,
              today, "Pending", ""]] ∧
        [data.party.getD "Guest", intToStr (data.price.getD 0), pyItem data.item,
            today, "Pending", ""].getD 4 "" = "Pending")
    ∧ (data.mode ≠ some "UDHAR" →
        (reply_whatsapp sc today db llm mediaOk sheet form).1.khata = sheet.khata) := by
  have hred : reply_whatsapp sc today db llm mediaOk sheet form =
      handleAction sc today sheet data := by
    simp only [reply_whatsapp, hu, hl, hc]
    rw [if_neg (by simp), if_neg hm]
  rw [hred]
  simp only [handleAction, ha, if_pos rfl, if_true]
  refine ⟨⟨_, rfl⟩, ?_, ?_⟩
  · intro hmode
    rw [if_pos hmode]
    exact ⟨rfl, rfl⟩
  · intro hmode
    rw [if_neg hmode]

/-- Witness for C4: a concrete UDHAR sale appends its Khata row. -/
theorem claim_C4_witness :
    (reply_whatsapp (fun _ _ => 0) "2026-01-01"
        [{ email := "a@b.c", phone_number := some "+911234567890", credsOk := true,
           sheet_id := none, password_hash := none }]
        (fun _ => Except.ok
          { action := some "SALE", item := some "Chai", qty := some 2,
            price := some 30, party := some "Ramu", mode := some "UDHAR",
            staff_name := none, staff_status := none, reply := some "Done" })
        true
        { inventory := [["Item Name", "Quantity", "Cost", "Date", "Alert Status"]],
          sales := [["Item Name", "Quantity", "Sold Price", "Date", "Mode", "Party"]],
          ledger := [], khata := [["Customer", "Amount", "Reason", "Date", "Status", "Phone"]],
          staff := [] }
        { From := "whatsapp:+911234567890", body := "2 chai udhar",
          numMedia := 0, mediaUrl := none }).1.khata =
      [["Customer", "Amount", "Reason", "Date", "Status", "Phone"],
       ["Ramu", "30", "Chai", "2026-01-01", "Pending", ""]] := by
  have h := (claim_C4 (fun _ _ => 0) "2026-01-01"
    [{ email := "a@b.c", phone_number := some "+911234567890", credsOk := true,
       sheet_id := none, password_hash := none }]
    (fun _ => Except.ok
      { action := some "SALE", item := some "Chai", qty := some 2,
        price := some 30, party := some "Ramu", mode := some "UDHAR",
        staff_name := none, staff_status := none, reply := some "Done" })
    true
    { inventory := [["Item Name", "Quantity", "Cost", "Date", "Alert Status"]],
      sales := [["Item Name", "Quantity", "Sold Price", "Date", "Mode", "Party"]],
      ledger := [], khata := [["Customer", "Amount", "Reason", "Date", "Status", "Phone"]],
      staff := [] }
    { From := "whatsapp:+911234567890", body := "2 chai udhar",
      numMedia := 0, mediaUrl := none }
    { email := "a@b.c", phone_number := some "+911234567890", credsOk := true,
      sheet_id := none, password_hash := none }
    { action := some "SALE", item := some "Chai", qty := some 2,
      price := some 30, party := some "Ramu", mode := some "UDHAR",
      staff_name := none, staff_status := none, reply := some "Done" }
    (by decide) rfl (by decide) rfl rfl).2.1 rfl
  exact h.1

/-- Frame lemma for the dispatch: every action at most appends to Sales and
to Ledger. -/
theorem handleAction_frame (sc : String → String → Nat) (today : String)
    (sheet : Sheet) (data : MsgData) :
    (∃ t, (handleAction sc today sheet data).1.sales = sheet.sales ++ t)
    ∧ (∃ t, (handleAction sc today sheet data).1.ledger = sheet.ledger ++ t) := by
  unfold handleAction
  by_cases h1 : data.action = some "SALE"
  · rw [if_pos h1]
    exact ⟨⟨_, rfl⟩, ⟨[], (List.append_nil _).symm⟩⟩
  · rw [if_neg h1]
    by_cases h2 : data.action = some "STAFF"
    · rw [if_pos h2]
      exact ⟨⟨[], (List.append_nil _).symm⟩, ⟨[], (List.append_nil _).symm⟩⟩
    · rw [if_neg h2]
      by_cases h3 : data.action = some "RESTOCK"
      · rw [if_pos h3]
        exact ⟨⟨[], (List.append_nil _).symm⟩, ⟨_, rfl⟩⟩
      · rw [if_neg h3]
        exact ⟨⟨[], (List.append_nil _).symm⟩, ⟨[], (List.append_nil _).symm⟩⟩

/-- Claim C7: the Sales and Ledger tabs are append-only.  On every webhook,
whatever the path taken, the rows present before the call are an unchanged
initial segment of the rows after it; and a scheduler scan never touches
either tab. -/
theorem claim_C7 :
    (∀ (sc : String → String → Nat) (today : String) (db : List UserRec)
        (llm : String → Except String MsgData) (mediaOk : Bool)
        (sheet : Sheet) (form : WebForm),
        (∃ t, (reply_whatsapp sc today db llm mediaOk sheet form).1.sales =
          sheet.sales ++ t)
        ∧ (∃ t, (reply_whatsapp sc today db llm mediaOk sheet form).1.ledger =
          sheet.ledger ++ t))
    ∧ (∀ sheet : Sheet, (scheduler_scan sheet).1.sales = sheet.sales ∧
        (scheduler_scan sheet).1.ledger = sheet.ledger) := by
  constructor
  · intro sc today db llm mediaOk sheet form
    unfold reply_whatsapp
    cases hu : get_user_by_phone db (pyReplace form.From "whatsapp:" "") with
    | none =>
      simp only [hu]
      exact ⟨⟨[], (List.append_nil _).symm⟩, ⟨[], (List.append_nil _).symm⟩⟩
    | some user =>
      simp only [hu]
      by_cases hc : user.credsOk = false
      · rw [if_pos hc]
        exact ⟨⟨[], (List.append_nil _).symm⟩, ⟨[], (List.append_nil _).symm⟩⟩
      · rw [if_neg hc]
        by_cases hm : 0 < form.numMedia ∧ form.mediaUrl.getD "" ≠ "" ∧ mediaOk = false
        · rw [if_pos hm]
          exact ⟨⟨[], (List.append_nil _).symm⟩, ⟨[], (List.append_nil _).symm⟩⟩
        · rw [if_neg hm]
          cases hl : llm form.body with
          | error e =>
            exact ⟨⟨[], (List.append_nil _).symm⟩, ⟨[], (List.append_nil _).symm⟩⟩
          | ok data => exact handleAction_frame sc today sheet data
  · intro sheet
    exact ⟨rfl, rfl⟩

/-- Claim C2: on a scan, a well-formed Inventory row gets an alert exactly
when its quantity is below 10 and its flag is not `"SENT"`; the flag is set
to `"SENT"` in the same scan; a second scan (quantities unchanged) sends no
alert for any row, so there is exactly one alert per crossing; a row at or
above 10 with the flag set has the flag cleared to `""` and sends nothing;
and once cleared, a new drop below 10 alerts again. -/
theorem claim_C2 (r : Row) (q : Int) (hlen : ¬r.length < 2)
    (hq : pyInt (r.getD 1 "") = some q) :
    ((scanInvRow r).2.isSome = true ↔ (q < 10 ∧ r.getD 4 "" ≠ "SENT"))
    ∧ (q < 10 ∧ r.getD 4 "" ≠ "SENT" →
        scanInvRow r = (setCellRow r 4 "SENT", some (Alert.lowStock (r.headD "") q))
        ∧ (scanInvRow r).1.getD 4 "" = "SENT")
    ∧ (scanInvRow (scanInvRow r).1).2 = none
    ∧ (10 ≤ q ∧ r.getD 4 "" = "SENT" →
        (scanInvRow r).1.getD 4 "" = "" ∧ (scanInvRow r).2 = none)
    ∧ (∀ s v, 10 ≤ q → r.getD 4 "" = "SENT" → pyInt s = some v → v < 10 →
        (scanInvRow (setCellRow (scanInvRow r).1 1 s)).2 =
          some (Alert.lowStock ((scanInvRow r).1.headD "") v))
    ∧ (∀ t : Tab, (check_inventory_risks (check_inventory_risks t).1).2 = []) := by
  have h4len : r.getD 4 "" = "SENT" → 4 < r.length := by
    intro hsent
    by_contra hlt
    rw [List.getD_eq_default _ _ (by omega)] at hsent
    exact absurd hsent (by simp)
  refine ⟨?_, ?_, scanInvRow_twice r, ?_, ?_, fun t => check_inventory_risks_twice t⟩
  · rw [scanInvRow_eq r q hlen hq]
    by_cases hc1 : q < 10 ∧ r.getD 4 "" ≠ "SENT"
    · rw [if_pos hc1]
      exact ⟨fun _ => hc1, fun _ => rfl⟩
    · rw [if_neg hc1]
      by_cases hc2 : 10 ≤ q ∧ r.getD 4 "" = "SENT"
      · rw [if_pos hc2]
        exact ⟨fun hcon => by simp at hcon, fun hcond => absurd hcond hc1⟩
      · rw [if_neg hc2]
        exact ⟨fun hcon => by simp at hcon, fun hcond => absurd hcond hc1⟩
  · intro hc1
    rw [scanInvRow_eq r q hlen hq, if_pos hc1]
    exact ⟨rfl, getD_setCellRow_self r 4 "SENT"⟩
  · intro hc2
    have h4 : 4 < r.length := h4len hc2.2
    rw [scanInvRow_eq r q hlen hq,
      if_neg (fun hcon => absurd hc2.1 (not_le.mpr hcon.1)), if_pos hc2, if_pos h4]
    exact ⟨getD_setCellRow_self r 4 "", rfl⟩
  · intro s v h10 hsent hps hv
    have h4 : 4 < r.length := h4len hsent
    have hclr : (scanInvRow r).1 = setCellRow r 4 "" := by
      rw [scanInvRow_eq r q hlen hq,
        if_neg (fun hcon => absurd h10 (not_le.mpr hcon.1)), if_pos ⟨h10, hsent⟩,
        if_pos h4]
    rw [hclr]
    have hlen2 : ¬(setCellRow (setCellRow r 4 "") 1 s).length < 2 := by
      rw [length_setCellRow, length_setCellRow]
      omega
    have hq2 : pyInt ((setCellRow (setCellRow r 4 "") 1 s).getD 1 "") = some v := by
      rw [getD_setCellRow_self]
      exact hps
    rw [scanInvRow_eq _ v hlen2 hq2]
    have hflag : (setCellRow (setCellRow r 4 "") 1 s).getD 4 "" = "" := by
      rw [getD_setCellRow_ne _ 1 4 _ (by omega), getD_setCellRow_self]
    rw [if_pos ⟨hv, by rw [hflag]; simp⟩]
    have hhead : (setCellRow (setCellRow r 4 "") 1 s).headD "" =
        (setCellRow r 4 "").headD "" := by
      rw [headD_eq_getD, headD_eq_getD, getD_setCellRow_ne _ 1 0 _ (by omega)]
    rw [hhead]

/-- Witness for C2: a concrete low-stock row with an unset flag. -/
theorem claim_C2_witness :
    scanInvRow ["Sugar", "5", "0", "2026-01-01", ""] =
      (["Sugar", "5", "0", "2026-01-01", "SENT"], some (Alert.lowStock "Sugar" 5)) ∧
    (scanInvRow (scanInvRow ["Sugar", "5", "0", "2026-01-01", ""]).1).2 = none := by
  have h := claim_C2 ["Sugar", "5", "0", "2026-01-01", ""] 5 (by decide) (by decide)
  refine ⟨?_, h.2.2.1⟩
  have h2 := (h.2.1 ⟨by decide, by decide⟩).1
  rw [h2]
  rfl

theorem get?_of_drop_one (inv : Tab) (i : Nat) (r : Row)
    (h : (inv.drop 1).get? i = some r) : inv.get? (i + 1) = some r := by
  have hd := List.getElem?_drop inv 1 i
  rw [← List.get?_eq_getElem?, ← List.get?_eq_getElem?] at hd
  rw [h] at hd
  rw [Nat.add_comm] at hd
  exact hd.symm

/-- Claim C3 counterexample: a sale larger than the stock in hand does not
store `c - q`.  With current quantity 1 and a sale of 2 the stored quantity
is `"0"`, not `c - q = -1`: the write is clamped at zero. -/
theorem claim_C3_cex :
    (update_inventory_stock (fun a b => if a == b then 100 else 0) "2026-01-02"
        [["Item Name", "Quantity", "Cost", "Date", "Alert Status"],
         ["Sugar", "1", "0", "2026-01-01", ""]]
        "Sugar" (-2) 0).1 =
      [["Item Name", "Quantity", "Cost", "Date", "Alert Status"],
       ["Sugar", "0", "0", "2026-01-01", ""]] ∧
    intToStr (1 - 2) = "-1" ∧ ("0" : String) ≠ "-1" := by
  refine ⟨by decide, by decide, by decide⟩

/-- Claim C3 (amended): inventory is mutated additively but clamped at
zero: an update of a matched row with current quantity `c` stores
`max 0 (c + qty_change)` — i.e. `max 0 (c - q)` for a sale of `q` and
`max 0 (c + q)` for a restock of `q`. -/
theorem claim_C3 (sc : String → String → Nat) (today : String) (inv : Tab)
    (item_name : String) (qty_change cost : Int) (m : String) (s : Nat)
    (i : Nat) (r : Row) (c : Int)
    (hsc : ∀ x, sc x "" = 0)
    (hE : extractOne sc item_name (existingItems inv) = some (m, s))
    (hs : 80 < s)
    (hF : findMatchRow (inv.drop 1) m = some (i, r))
    (hcq : cellQty r = some c) :
    ∃ r2, (update_inventory_stock sc today inv item_name qty_change cost).1.get? (i + 1) =
        some r2 ∧
      r2.getD 1 "" = intToStr (max 0 (c + qty_change)) := by
  have hspec := extractOne_spec sc item_name _ m s hE
  have hne : m ≠ "" := by
    intro hme
    rw [hme, hsc item_name] at hspec
    omega
  have hrow : inv.get? (i + 1) = some r :=
    get?_of_drop_one inv i r (findRowAux_some _ _ _ _ hF).1
  simp only [update_inventory_stock, hE]
  rw [if_pos ⟨hne, hs⟩]
  simp only [hF, hcq]
  by_cases hcc : 0 < qty_change ∧ 0 < cost
  · rw [if_pos hcc]
    have h1 := get?_setCell_self inv (i + 1) 1 (intToStr (max 0 (c + qty_change))) r hrow
    have h2 := get?_setCell_self _ (i + 1) 2 (intToStr cost) _ h1
    refine ⟨_, h2, ?_⟩
    rw [getD_setCellRow_ne _ 2 1 _ (by omega), getD_setCellRow_self]
  · rw [if_neg hcc]
    have h1 := get?_setCell_self inv (i + 1) 1 (intToStr (max 0 (c + qty_change))) r hrow
    refine ⟨_, h1, ?_⟩
    rw [getD_setCellRow_self]

/-- Witness for C3: selling 2 of 7 stored units stores `max 0 (7 - 2) = 5`. -/
theorem claim_C3_witness :
    ∃ r2, (update_inventory_stock (fun _ b => b.length.min 1 * 100) "2026-01-02"
        [["Item Name", "Quantity", "Cost", "Date", "Alert Status"],
         ["Sugar", "7", "0", "2026-01-01", ""]]
        "Sugar" (-2) 0).1.get? 1 = some r2 ∧
      r2.getD 1 "" = intToStr (max 0 (7 + (-2))) :=
  claim_C3 (fun _ b => b.length.min 1 * 100) "2026-01-02"
    [["Item Name", "Quantity", "Cost", "Date", "Alert Status"],
     ["Sugar", "7", "0", "2026-01-01", ""]]
    "Sugar" (-2) 0 "Sugar" 100 0 ["Sugar", "7", "0", "2026-01-01", ""] 7
    (fun _ => rfl) (by decide) (by decide) (by decide) (by decide)

/-- Claim C1: a fuzzy match above the 80 threshold routes the update to the
matched canonical row (resolved name is the canonical one, row count
unchanged — no duplicate); without such a match only a positive quantity
change appends a row (under the incoming name), and a non-positive one
leaves the tab untouched.  `hsc` records that the library scorer gives the
empty string a zero score, so an empty canonical cell never wins. -/
theorem claim_C1 (sc : String → String → Nat) (today : String) (inv : Tab)
    (item_name : String) (qty_change cost : Int)
    (hsc : ∀ x, sc x "" = 0) :
    (∀ m s, extractOne sc item_name (existingItems inv) = some (m, s) → 80 < s →
        (update_inventory_stock sc today inv item_name qty_change cost).2 = m
        ∧ (update_inventory_stock sc today inv item_name qty_change cost).1.length =
            inv.length
        ∧ (∀ i r c, findMatchRow (inv.drop 1) m = some (i, r) → cellQty r = some c →
            (update_inventory_stock sc today inv item_name qty_change cost).1 =
              if 0 < qty_change ∧ 0 < cost then
                setCell (setCell inv (i + 1) 1 (intToStr (max 0 (c + qty_change))))
                  (i + 1) 2 (intToStr cost)
              else setCell inv (i + 1) 1 (intToStr (max 0 (c + qty_change)))))
    ∧ ((∀ m s, extractOne sc item_name (existingItems inv) = some (m, s) → s ≤ 80) →
        0 < qty_change →
        update_inventory_stock sc today inv item_name qty_change cost =
          (inv ++ [[item_name, intToStr qty_change, intToStr cost, today, ""]],
           item_name))
    ∧ ((∀ m s, extractOne sc item_name (existingItems inv) = some (m, s) → s ≤ 80) →
        qty_change ≤ 0 →
        update_inventory_stock sc today inv item_name qty_change cost =
          (inv, item_name)) := by
  refine ⟨?_, ?_, ?_⟩
  · intro m s hE h80
    have hspec := extractOne_spec sc item_name _ m s hE
    have hne : m ≠ "" := by
      intro hme
      rw [hme, hsc item_name] at hspec
      omega
    have hFs : (findMatchRow (inv.drop 1) m).isSome = true :=
      findMatchRow_isSome inv m hspec.1
    rcases hFo : findMatchRow (inv.drop 1) m with _ | ⟨i, r⟩
    · rw [hFo] at hFs
      simp at hFs
    · rcases hco : cellQty r with _ | c
      · simp only [update_inventory_stock, hE]
        rw [if_pos ⟨hne, h80⟩]
        simp only [hFo, hco]
        refine ⟨trivial, trivial, ?_⟩
        intro i2 r2 c2 hF2 hc2
        cases hF2
        rw [hco] at hc2
        cases hc2
      · simp only [update_inventory_stock, hE]
        rw [if_pos ⟨hne, h80⟩]
        simp only [hFo, hco]
        refine ⟨trivial, ?_, ?_⟩
        · by_cases hcc : 0 < qty_change ∧ 0 < cost
          · rw [if_pos hcc, length_setCell, length_setCell]
          · rw [if_neg hcc, length_setCell]
        · intro i2 r2 c2 hF2 hc2
          cases hF2
          rw [hco] at hc2
          cases hc2
          rfl
  · intro hNM hqc
    rcases hEo : extractOne sc item_name (existingItems inv) with _ | ⟨m, s⟩
    · simp only [update_inventory_stock, hEo]
      rw [if_pos hqc]
    · have hles := hNM m s hEo
      simp only [update_inventory_stock, hEo]
      rw [if_neg (fun hcon => absurd hcon.2 (not_lt.mpr hles)), if_pos hqc]
  · intro hNM hqc
    rcases hEo : extractOne sc item_name (existingItems inv) with _ | ⟨m, s⟩
    · simp only [update_inventory_stock, hEo]
      rw [if_neg (not_lt.mpr hqc)]
    · have hles := hNM m s hEo
      simp only [update_inventory_stock, hEo]
      rw [if_neg (fun hcon => absurd hcon.2 (not_lt.mpr hles)),
        if_neg (not_lt.mpr hqc)]

/-- Witness for C1: a matched sale updates the canonical row in place, and
an unmatched restock appends exactly one new row. -/
theorem claim_C1_witness :
    ((update_inventory_stock (fun _ b => b.length.min 1 * 100) "2026-01-02"
        [["Item Name", "Quantity", "Cost", "Date", "Alert Status"],
         ["Sugar", "7", "0", "2026-01-01", ""]]
        "Sugar" (-2) 0).2 = "Sugar"
      ∧ (update_inventory_stock (fun _ b => b.length.min 1 * 100) "2026-01-02"
          [["Item Name", "Quantity", "Cost", "Date", "Alert Status"],
           ["Sugar", "7", "0", "2026-01-01", ""]]
          "Sugar" (-2) 0).1.length = 2)
    ∧ update_inventory_stock (fun _ _ => 0) "2026-01-02"
        [["Item Name", "Quantity", "Cost", "Date", "Alert Status"],
         ["Sugar", "7", "0", "2026-01-01", ""]]
        "Lassi" 4 30 =
      ([["Item Name", "Quantity", "Cost", "Date", "Alert Status"],
        ["Sugar", "7", "0", "2026-01-01", ""],
        ["Lassi", "4", "30", "2026-01-02", ""]], "Lassi") := by
  constructor
  · have h := (claim_C1 (fun _ b => b.length.min 1 * 100) "2026-01-02"
      [["Item Name", "Quantity", "Cost", "Date", "Alert Status"],
       ["Sugar", "7", "0", "2026-01-01", ""]]
      "Sugar" (-2) 0 (fun _ => rfl)).1 "Sugar" 100 (by decide) (by decide)
    exact ⟨h.1, h.2.1⟩
  · have h := (claim_C1 (fun _ _ => 0) "2026-01-02"
      [["Item Name", "Quantity", "Cost", "Date", "Alert Status"],
       ["Sugar", "7", "0", "2026-01-01", ""]]
      "Lassi" 4 30 (fun _ => rfl)).2.1
      (fun m s hE => by
        have hx := (extractOne_spec _ _ _ _ _ hE).2
        omega)
      (by decide)
    exact h

/-- Every run of `update_inventory_stock` either rewrites one matched row in
place, leaves the tab unchanged, or appends exactly one new row. -/
theorem update_inventory_stock_cases (sc : String → String → Nat) (today : String)
    (inv : Tab) (item_name : String) (qty_change cost : Int) :
    (∃ i r c, inv.get? (i + 1) = some r ∧ cellQty r = some c ∧
        (update_inventory_stock sc today inv item_name qty_change cost).1 =
          (if 0 < qty_change ∧ 0 < cost then
            setCell (setCell inv (i + 1) 1 (intToStr (max 0 (c + qty_change))))
              (i + 1) 2 (intToStr cost)
          else setCell inv (i + 1) 1 (intToStr (max 0 (c + qty_change)))))
    ∨ (update_inventory_stock sc today inv item_name qty_change cost).1 = inv
    ∨ (0 < qty_change ∧ ∃ nm,
        (update_inventory_stock sc today inv item_name qty_change cost).1 =
          inv ++ [[nm, intToStr qty_change, intToStr cost, today, ""]]) := by
  rcases hE : extractOne sc item_name (existingItems inv) with _ | ⟨m, s⟩
  · simp only [update_inventory_stock, hE]
    by_cases hqc : 0 < qty_change
    · rw [if_pos hqc]
      exact Or.inr (Or.inr ⟨hqc, item_name, rfl⟩)
    · rw [if_neg hqc]
      exact Or.inr (Or.inl rfl)
  · simp only [update_inventory_stock, hE]
    by_cases hcond : m ≠ "" ∧ 80 < s
    · rw [if_pos hcond]
      rcases hF : findMatchRow (inv.drop 1) m with _ | ⟨i, r⟩
      · simp only [hF]
        by_cases hqc : 0 < qty_change
        · rw [if_pos hqc]
          exact Or.inr (Or.inr ⟨hqc, m, rfl⟩)
        · rw [if_neg hqc]
          exact Or.inr (Or.inl rfl)
      · simp only [hF]
        rcases hco : cellQty r with _ | c
        · simp only [hco]
          exact Or.inr (Or.inl trivial)
        · simp only [hco]
          exact Or.inl ⟨i, r, c,
            get?_of_drop_one inv i r (findRowAux_some _ _ _ _ hF).1, hco, rfl⟩
    · rw [if_neg hcond]
      by_cases hqc : 0 < qty_change
      · rw [if_pos hqc]
        exact Or.inr (Or.inr ⟨hqc, item_name, rfl⟩)
      · rw [if_neg hqc]
        exact Or.inr (Or.inl rfl)

/-- Claim C8: every quantity value `update_inventory_stock` writes is
non-negative — every row of the output is either an untouched input row or
carries a quantity cell `intToStr v` with `0 ≤ v` — and the tab can only
grow by one row, which happens only on a positive quantity change. -/
theorem claim_C8 (sc : String → String → Nat) (today : String) (inv : Tab)
    (item_name : String) (qty_change cost : Int) :
    (∀ r2, r2 ∈ (update_inventory_stock sc today inv item_name qty_change cost).1 →
        r2 ∈ inv ∨ ∃ v : Int, 0 ≤ v ∧ r2.getD 1 "" = intToStr v)
    ∧ (inv.length <
          (update_inventory_stock sc today inv item_name qty_change cost).1.length →
        0 < qty_change ∧ ∃ nm,
          (update_inventory_stock sc today inv item_name qty_change cost).1 =
            inv ++ [[nm, intToStr qty_change, intToStr cost, today, ""]]) := by
  rcases update_inventory_stock_cases sc today inv item_name qty_change cost with
    ⟨i, r, c, hrow, hcq, heq⟩ | heq | ⟨hqc, nm, heq⟩
  · constructor
    · intro r2 hmem
      rw [heq] at hmem
      by_cases hcc : 0 < qty_change ∧ 0 < cost
      · rw [if_pos hcc] at hmem
        rcases mem_modifyRow _ _ _ _ hmem with hm1 | ⟨r1, hr1, he1⟩
        · rcases mem_modifyRow _ _ _ _ hm1 with hm2 | ⟨r0, hr0, he0⟩
          · exact Or.inl hm2
          · refine Or.inr ⟨max 0 (c + qty_change), le_max_left _ _, ?_⟩
            rw [he0, getD_setCellRow_self]
        · rw [get?_setCell_self inv (i + 1) 1 _ r hrow] at hr1
          cases hr1
          refine Or.inr ⟨max 0 (c + qty_change), le_max_left _ _, ?_⟩
          rw [he1, getD_setCellRow_ne _ 2 1 _ (by omega), getD_setCellRow_self]
      · rw [if_neg hcc] at hmem
        rcases mem_modifyRow _ _ _ _ hmem with hm1 | ⟨r0, hr0, he0⟩
        · exact Or.inl hm1
        · refine Or.inr ⟨max 0 (c + qty_change), le_max_left _ _, ?_⟩
          rw [he0, getD_setCellRow_self]
    · intro hlt
      rw [heq] at hlt
      exfalso
      by_cases hcc : 0 < qty_change ∧ 0 < cost
      · rw [if_pos hcc, length_setCell, length_setCell] at hlt
        omega
      · rw [if_neg hcc, length_setCell] at hlt
        omega
  · constructor
    · intro r2 hmem
      rw [heq] at hmem
      exact Or.inl hmem
    · intro hlt
      rw [heq] at hlt
      omega
  · constructor
    · intro r2 hmem
      rw [heq] at hmem
      rcases List.mem_append.mp hmem with hm | hm
      · exact Or.inl hm
      · have hr2 : r2 = [nm, intToStr qty_change, intToStr cost, today, ""] := by
          simpa using hm
        refine Or.inr ⟨qty_change, le_of_lt hqc, ?_⟩
        rw [hr2]
        rfl
    · intro _
      exact ⟨hqc, nm, heq⟩

/-- Witness for C8: the row appended by an unmatched restock carries a
non-negative quantity cell. -/
theorem claim_C8_witness :
    ["Chai", "3", "2", "2026-01-01", ""] ∈
        ([["Item Name", "Quantity", "Cost", "Date", "Alert Status"]] : Tab) ∨
      ∃ v : Int, 0 ≤ v ∧
        (["Chai", "3", "2", "2026-01-01", ""] : Row).getD 1 "" = intToStr v :=
  (claim_C8 (fun _ _ => 0) "2026-01-01"
    [["Item Name", "Quantity", "Cost", "Date", "Alert Status"]]
    "Chai" 3 2).1 ["Chai", "3", "2", "2026-01-01", ""] (by decide)

end OpsAgent
